import Mathlib

/-
Verification of the berth-and-hardstand assignment optimizer.

The Python sources are shallowly embedded: dataframe rows become records,
dataframe columns derived by `apply` become Lean functions, the pandas
sort / groupby-shift / groupby-cumsum idioms become a stable insertion
sort and structural folds over row lists, and the PuLP variable / constraint
dictionaries become explicit key lists and quantified propositions over an
assignment of integer values to variables.
-/

namespace Astican

/-- The sentinel string the source uses for a period without an assigned
location ("SIN UBICACION ASIGNADA"). -/
def SIN_UBICACION : String := "SIN UBICACION ASIGNADA"

/-- One row of the period table handled by procesarDatos.py: project id,
per-project sequence index (column periodo_id), epoch-relative first and
last day (columns fecha_inicio / fecha_fin, already converted to signed
integers), period type (tipo_desc, FLOTE or VARADA) and declared area
(nombre_area). -/
structure Periodo where
  proyecto_id : String
  periodo_id : Nat
  fecha_ini : Int
  fecha_fin : Int
  tipo_desc : String
  nombre_area : String
deriving DecidableEq

/-- Stable insertion of x into l: x is placed after every element e with
le e x, so that elements arriving later stay after equal keys. -/
def insertar (le : α → α → Bool) (x : α) : List α → List α
  | [] => [x]
  | h :: t => if le h x then h :: insertar le x t else x :: h :: t

/-- Stable sort of a row list, modelling pandas sort_values: rows are folded
left to right into a sorted accumulator. -/
def ordenar (le : α → α → Bool) (l : List α) : List α :=
  l.foldl (fun acc x => insertar le x acc) []

/-- Sort key used by procesarDatos.py: by proyecto_id, then fecha_inicio. -/
def lePeriodo (a b : Periodo) : Bool :=
  if a.proyecto_id = b.proyecto_id then decide (a.fecha_ini ≤ b.fecha_ini)
  else decide (a.proyecto_id < b.proyecto_id)

/-- The merge scan of unificar_periodos_consecutivos: walking the sorted rows,
a row is merged into the current run exactly when it belongs to the same
project, has the same type and area, and starts the day after the run ends
(the cambio / cumsum / groupby-agg idiom, with agg first/last). -/
def unificarAux (cur : Periodo) : List Periodo → List Periodo
  | [] => [cur]
  | r :: rest =>
    if r.proyecto_id = cur.proyecto_id ∧ r.tipo_desc = cur.tipo_desc ∧
        r.nombre_area = cur.nombre_area ∧ r.fecha_ini = cur.fecha_fin + 1 then
      unificarAux { cur with fecha_fin := r.fecha_fin } rest
    else
      cur :: unificarAux r rest

/-- unificar_periodos_consecutivos: sort by (proyecto_id, fecha_inicio) and
merge maximal runs of adjacent same-type same-area periods. -/
def unificar (l : List Periodo) : List Periodo :=
  match ordenar lePeriodo l with
  | [] => []
  | h :: t => unificarAux h t

/-- A period straddling the planning epoch: starts before day 0 and ends at
or after day 0 (the selection of separar_periodos_cruzan). -/
def cruza (r : Periodo) : Bool :=
  decide (r.fecha_ini < 0) && decide (0 ≤ r.fecha_fin)

/-- separar_periodos_cruzan: every epoch-straddling period becomes a past half
(fecha_fin := -1) and a future half (fecha_inicio := 0); the concatenation
order (past halves, future halves, remaining rows) follows the pd.concat
in the source. -/
def separar (l : List Periodo) : List Periodo :=
  (l.filter cruza).map (fun r => { r with fecha_fin := -1 })
    ++ (l.filter cruza).map (fun r => { r with fecha_ini := 0 })
    ++ l.filter (fun r => !cruza r)

/-- Per-project re-enumeration of periodo_id (the groupby cumcount of
procesarDatos.py, line 109), walking the sorted rows with a running counter
per project id. -/
def enumerarAux : List (String × Nat) → List Periodo → List Periodo
  | _, [] => []
  | cnts, r :: rest =>
    let n := (cnts.lookup r.proyecto_id).getD 0
    { r with periodo_id := n } :: enumerarAux ((r.proyecto_id, n + 1) :: cnts) rest

/-- Re-enumerate periodo_id from 0 per project, in table order. -/
def enumerar (l : List Periodo) : List Periodo :=
  enumerarAux [] l

/-- procesarDatos.py line 115: every period of an optimizable project with
fecha_inicio at or after day 0 gets the UNASSIGNED sentinel as its area. -/
def forzar (opt : String → Bool) (l : List Periodo) : List Periodo :=
  l.map (fun r =>
    if opt r.proyecto_id = true ∧ 0 ≤ r.fecha_ini then
      { r with nombre_area := SIN_UBICACION }
    else r)

/-- The Normalizer (procesarDatos.py lines 102-116 applied to the
integer-dated period table): merge consecutive periods, split epoch
straddlers, sort by (proyecto_id, fecha_inicio), re-enumerate the
per-project sequence indices and force UNASSIGNED on optimizable rows
at or after day 0. -/
def normalizar (opt : String → Bool) (l : List Periodo) : List Periodo :=
  forzar opt (enumerar (ordenar lePeriodo (separar (unificar l))))

/-- The integer interval [f .. l] as a list (empty when l < f). -/
def rango (f l : Int) : List Int :=
  (List.range (l + 1 - f).toNat).map (fun (i : Nat) => f + (i : Int))

/-- The dias column of procesarDatos.py line 130: list(range(fecha_inicio,
fecha_fin + 1)) when fecha_inicio >= 0, else the empty list. -/
def diasPeriodo (r : Periodo) : List Int :=
  if 0 ≤ r.fecha_ini then rango r.fecha_ini r.fecha_fin else []

/-- Day list as worded in the spec (section 4.2): [max(0, first_day) ..
last_day] when last_day is at or after 0, else empty.  Kept separate from
diasPeriodo so claim C5 can compare the two. -/
def diasSegunEspec (r : Periodo) : List Int :=
  if 0 ≤ r.fecha_fin then rango (max 0 r.fecha_ini) r.fecha_fin else []

theorem rango_vacio {f l : Int} (h : l < f) : rango f l = [] := by
  have : (l + 1 - f).toNat = 0 := by omega
  simp [rango, this]

theorem max_cero_eq {f : Int} (h : 0 ≤ f) : max 0 f = f := by omega

/-- C5: for every period table, every row of the epoch split has its derived
day list (procesarDatos.py line 130) equal to the spec formula
[max(0, first_day) .. last_day] when last_day is at or after 0 and empty
otherwise; and a period with first_day < 0 and last_day at or after 0 is
split so that its day-0 half receives exactly the days [0 .. last_day]. -/
theorem dias_tras_separar (l : List Periodo) (r p : Periodo) :
    (r ∈ separar l → diasPeriodo r = diasSegunEspec r)
    ∧ (p ∈ l → p.fecha_ini < 0 → 0 ≤ p.fecha_fin →
        { p with fecha_ini := 0 } ∈ separar l ∧
        diasPeriodo { p with fecha_ini := 0 } = rango 0 p.fecha_fin) := by
  constructor
  · intro hr
    simp only [separar, List.mem_append, List.mem_map, List.mem_filter] at hr
    rcases hr with (⟨q, ⟨_, hq⟩, rfl⟩ | ⟨q, ⟨_, hq⟩, rfl⟩) | ⟨_, hq⟩
    · -- past half: fecha_fin = -1, fecha_ini < 0
      simp only [cruza, Bool.and_eq_true, decide_eq_true_eq] at hq
      have h1 : ¬ (0 : Int) ≤ q.fecha_ini := by omega
      simp [diasPeriodo, diasSegunEspec, h1]
    · -- future half: fecha_ini = 0
      simp only [cruza, Bool.and_eq_true, decide_eq_true_eq] at hq
      simp [diasPeriodo, diasSegunEspec, hq.2]
    · -- untouched row: not epoch-straddling
      simp only [Bool.not_eq_true', cruza, Bool.and_eq_false_iff,
        decide_eq_false_iff_not, not_lt] at hq
      rcases hq with hq | hq
      · -- 0 ≤ fecha_ini
        by_cases hf : (0 : Int) ≤ r.fecha_fin
        · simp [diasPeriodo, diasSegunEspec, hq, hf, max_cero_eq hq]
        · push_neg at hf
          have : r.fecha_fin < r.fecha_ini := by omega
          simp [diasPeriodo, diasSegunEspec, hq, not_le.mpr hf, rango_vacio this]
      · -- fecha_fin < 0
        have hf : ¬ (0 : Int) ≤ r.fecha_fin := by omega
        by_cases hi : (0 : Int) ≤ r.fecha_ini
        · have : r.fecha_fin < r.fecha_ini := by omega
          simp [diasPeriodo, diasSegunEspec, hi, hf, rango_vacio this]
        · simp [diasPeriodo, diasSegunEspec, hi, hf]
  · intro hp hlt hge
    have hc : cruza p = true := by
      simp [cruza, hlt, hge]
    constructor
    · simp only [separar, List.mem_append, List.mem_map, List.mem_filter]
      exact Or.inl (Or.inr ⟨p, ⟨hp, hc⟩, rfl⟩)
    · simp [diasPeriodo]

/-- Witness for C5 at a concrete table: the period -3..4 is split and its
day-0 half covers exactly days 0..4, and every split row obeys the spec
formula. -/
theorem dias_tras_separar_testigo :
    (⟨"PRO1", 0, -3, 4, "FLOTE", "MUELLE SUR"⟩ : Periodo) ∈
        [(⟨"PRO1", 0, -3, 4, "FLOTE", "MUELLE SUR"⟩ : Periodo)] ∧
      ({ (⟨"PRO1", 0, -3, 4, "FLOTE", "MUELLE SUR"⟩ : Periodo) with fecha_ini := 0 } ∈
          separar [⟨"PRO1", 0, -3, 4, "FLOTE", "MUELLE SUR"⟩] ∧
        diasPeriodo { (⟨"PRO1", 0, -3, 4, "FLOTE", "MUELLE SUR"⟩ : Periodo) with
            fecha_ini := 0 } = rango 0 4) := by
  refine ⟨by decide, ?_⟩
  exact (dias_tras_separar [⟨"PRO1", 0, -3, 4, "FLOTE", "MUELLE SUR"⟩]
      ⟨"PRO1", 0, -3, 4, "FLOTE", "MUELLE SUR"⟩
      ⟨"PRO1", 0, -3, 4, "FLOTE", "MUELLE SUR"⟩).2 (by decide) (by decide) (by decide)

/-- The ubicaciones column of procesarDatos.py lines 122-128: a concrete
declared area yields the singleton; an UNASSIGNED FLOTE period yields the
quays long enough for the vessel; an UNASSIGNED VARADA period yields the
streets that fit the vessel, provided the vessel fits the synchrolift
envelope; otherwise the empty list.  muelles are (name, length) pairs,
calles are (name, length, width), sy is (length, width). -/
def ubicacionesPeriodo (eslora manga : String → Int) (muelles : List (String × Int))
    (calles : List (String × Int × Int)) (sy : Int × Int) (r : Periodo) : List String :=
  if r.nombre_area ≠ SIN_UBICACION then [r.nombre_area]
  else if r.tipo_desc = "FLOTE" then
    (muelles.filter (fun m => decide (eslora r.proyecto_id ≤ m.2))).map (fun m => m.1)
  else if r.tipo_desc = "VARADA" ∧ eslora r.proyecto_id ≤ sy.1 ∧ manga r.proyecto_id ≤ sy.2 then
    (calles.filter (fun c =>
      decide (eslora r.proyecto_id ≤ c.2.1) && decide (manga r.proyecto_id ≤ c.2.2))).map
      (fun c => c.1)
  else []

/-- Candidate locations as worded in the spec table of section 4.2, for
comparison with the source in claim C6. -/
def candidatosSegunEspec (eslora manga : String → Int) (muelles : List (String × Int))
    (calles : List (String × Int × Int)) (sy : Int × Int) (r : Periodo) : List String :=
  if r.nombre_area ≠ SIN_UBICACION then [r.nombre_area]
  else if r.tipo_desc = "FLOTE" then
    (muelles.filter (fun m => decide (eslora r.proyecto_id ≤ m.2))).map (fun m => m.1)
  else if r.tipo_desc = "VARADA" then
    if eslora r.proyecto_id ≤ sy.1 ∧ manga r.proyecto_id ≤ sy.2 then
      (calles.filter (fun c =>
        decide (eslora r.proyecto_id ≤ c.2.1) && decide (manga r.proyecto_id ≤ c.2.2))).map
        (fun c => c.1)
    else []
  else []

/-- C6: for every period whose type is FLOTE (AFLOAT) or VARADA (ASHORE), the
candidate-location list computed by procesarDatos.py lines 122-128 agrees
with the spec table: singleton for a concrete area, long-enough quays for
UNASSIGNED FLOTE, fitting streets gated by the synchrolift envelope for
UNASSIGNED VARADA, empty otherwise. -/
theorem ubicaciones_segun_espec (eslora manga : String → Int)
    (muelles : List (String × Int)) (calles : List (String × Int × Int))
    (sy : Int × Int) (r : Periodo)
    (ht : r.tipo_desc = "FLOTE" ∨ r.tipo_desc = "VARADA") :
    ubicacionesPeriodo eslora manga muelles calles sy r =
      candidatosSegunEspec eslora manga muelles calles sy r := by
  by_cases ha : r.nombre_area ≠ SIN_UBICACION
  · simp [ubicacionesPeriodo, candidatosSegunEspec, ha]
  · rcases ht with ht | ht
    · simp [ubicacionesPeriodo, candidatosSegunEspec, ha, ht]
    · by_cases hfit : eslora r.proyecto_id ≤ sy.1 ∧ manga r.proyecto_id ≤ sy.2
      · have hnf : r.tipo_desc ≠ "FLOTE" := by simp [ht]
        simp [ubicacionesPeriodo, candidatosSegunEspec, ha, ht, hnf, hfit]
      · have hnf : r.tipo_desc ≠ "FLOTE" := by simp [ht]
        simp [ubicacionesPeriodo, candidatosSegunEspec, ha, ht, hnf, hfit]

/-- Witness for C6 at a concrete UNASSIGNED VARADA period that fits the
synchrolift: both sides evaluate to the streets wide and long enough. -/
theorem ubicaciones_segun_espec_testigo :
    ubicacionesPeriodo (fun _ => 80) (fun _ => 12) [("MUELLE SUR", 130)]
        [("CALLE 1", 100, 20), ("CALLE 2", 70, 20), ("CALLE 3", 100, 10)] (120, 22)
        ⟨"PRO1", 0, 0, 4, "VARADA", SIN_UBICACION⟩ =
      candidatosSegunEspec (fun _ => 80) (fun _ => 12) [("MUELLE SUR", 130)]
        [("CALLE 1", 100, 20), ("CALLE 2", 70, 20), ("CALLE 3", 100, 10)] (120, 22)
        ⟨"PRO1", 0, 0, 4, "VARADA", SIN_UBICACION⟩ :=
  ubicaciones_segun_espec (fun _ => 80) (fun _ => 12) [("MUELLE SUR", 130)]
    [("CALLE 1", 100, 20), ("CALLE 2", 70, 20), ("CALLE 3", 100, 10)] (120, 22)
    ⟨"PRO1", 0, 0, 4, "VARADA", SIN_UBICACION⟩ (Or.inr rfl)

theorem insertar_todos_le {le : α → α → Bool} {x : α} :
    ∀ {l : List α}, (∀ a ∈ l, le a x = true) → insertar le x l = l ++ [x]
  | [], _ => rfl
  | h :: t, hall => by
    have hh : le h x = true := hall h (List.mem_cons_self h t)
    simp only [insertar, hh, if_true, List.cons_append]
    exact congrArg (h :: ·) (insertar_todos_le fun a ha => hall a (List.mem_cons_of_mem h ha))

theorem foldl_insertar_sorted (le : α → α → Bool) :
    ∀ (l acc : List α), (∀ a ∈ acc, ∀ x ∈ l, le a x = true) →
      l.Pairwise (fun a b => le a b = true) →
      l.foldl (fun acc x => insertar le x acc) acc = acc ++ l
  | [], acc, _, _ => by simp
  | x :: t, acc, h1, h2 => by
    have hx : insertar le x acc = acc ++ [x] :=
      insertar_todos_le (fun a ha => h1 a ha x (List.mem_cons_self x t))
    have h1' : ∀ a ∈ acc ++ [x], ∀ y ∈ t, le a y = true := by
      intro a ha y hy
      rcases List.mem_append.mp ha with ha | ha
      · exact h1 a ha y (List.mem_cons_of_mem x hy)
      · rcases List.mem_singleton.mp ha with rfl
        exact (List.pairwise_cons.mp h2).1 y hy
    calc (x :: t).foldl (fun acc x => insertar le x acc) acc
        = t.foldl (fun acc x => insertar le x acc) (acc ++ [x]) := by
          simp [List.foldl_cons, hx]
      _ = (acc ++ [x]) ++ t := foldl_insertar_sorted le t (acc ++ [x]) h1'
            (List.pairwise_cons.mp h2).2
      _ = acc ++ x :: t := by simp

/-- Sorting an already sorted list is the identity. -/
theorem ordenar_eq_self {le : α → α → Bool} {l : List α}
    (h : l.Pairwise (fun a b => le a b = true)) : ordenar le l = l := by
  have := foldl_insertar_sorted le l [] (by simp) h
  simpa [ordenar] using this

theorem insertar_perm (le : α → α → Bool) (x : α) :
    ∀ (l : List α), (insertar le x l).Perm (x :: l)
  | [] => List.Perm.refl _
  | h :: t => by
    cases hh : le h x with
    | true =>
      simp only [insertar, hh, if_true]
      exact ((insertar_perm le x t).cons h).trans (List.Perm.swap x h t)
    | false =>
      simp [insertar, hh]

theorem foldl_insertar_perm (le : α → α → Bool) :
    ∀ (l acc : List α), (l.foldl (fun acc x => insertar le x acc) acc).Perm (acc ++ l)
  | [], acc => by simp
  | x :: t, acc => by
    have h1 := foldl_insertar_perm le t (insertar le x acc)
    have h2 : (insertar le x acc ++ t).Perm (acc ++ x :: t) := by
      have := (insertar_perm le x acc).append_right t
      exact this.trans List.perm_middle.symm
    simpa [List.foldl_cons] using h1.trans h2

/-- The sort is a permutation of its input. -/
theorem ordenar_perm (le : α → α → Bool) (l : List α) : (ordenar le l).Perm l := by
  simpa [ordenar] using foldl_insertar_perm le l []

/-- Key deduplication as performed by a Python dict comprehension: first
occurrence kept, later duplicates dropped. -/
def claves [DecidableEq α] (l : List α) : List α :=
  l.foldl (fun acc k => if k ∈ acc then acc else acc ++ [k]) []

theorem claves_aux_nodup [DecidableEq α] :
    ∀ (l acc : List α), acc.Nodup →
      (l.foldl (fun acc k => if k ∈ acc then acc else acc ++ [k]) acc).Nodup
  | [], _, h => h
  | k :: t, acc, h => by
    by_cases hk : k ∈ acc
    · simpa [List.foldl_cons, hk] using claves_aux_nodup t acc h
    · have : (acc ++ [k]).Nodup := by
        simp [List.nodup_append, h, hk]
      simpa [List.foldl_cons, hk] using claves_aux_nodup t (acc ++ [k]) this

theorem claves_nodup [DecidableEq α] (l : List α) : (claves l).Nodup :=
  claves_aux_nodup l [] List.nodup_nil

/-- A row of the period table as the optimizer sees it (class Optimizador):
the normalized period columns together with the derived dias and
ubicaciones columns. -/
structure Fila where
  proyecto_id : String
  periodo_id : Nat
  fecha_ini : Int
  fecha_fin : Int
  tipo_desc : String
  nombre_area : String
  dias : List Int
  ubicaciones : List String
deriving DecidableEq

/-- The id_proyecto_reparacion index: proyecto_id + "_" + periodo_id. -/
def idRep (r : Fila) : String :=
  r.proyecto_id ++ "_" ++ toString r.periodo_id

/-- Build an optimizer row from a normalized period by attaching the derived
dias and ubicaciones columns. -/
def derivar (eslora manga : String → Int) (muelles : List (String × Int))
    (calles : List (String × Int × Int)) (sy : Int × Int) (p : Periodo) : Fila :=
  ⟨p.proyecto_id, p.periodo_id, p.fecha_ini, p.fecha_fin, p.tipo_desc, p.nombre_area,
    diasPeriodo p, ubicacionesPeriodo eslora manga muelles calles sy p⟩

/-- The dias column recomputed from a Fila row (same formula as line 130). -/
def diasFila (r : Fila) : List Int :=
  if 0 ≤ r.fecha_ini then rango r.fecha_ini r.fecha_fin else []

/-- Keys of the x variables (optimizador.py lines 37-40): one per optimizable
row, covered day and candidate location. -/
def xKeys (opt : String → Bool) (tbl : List Fila) : List (String × Int × String) :=
  (tbl.filter (fun r => opt r.proyecto_id)).bind
    (fun r => r.dias.bind (fun d => r.ubicaciones.map (fun loc => (idRep r, d, loc))))

/-- Keys of the m variables (optimizador.py lines 47-49): one per optimizable
row with at least two candidate locations and per covered day. -/
def mKeys (opt : String → Bool) (tbl : List Fila) : List (String × Int) :=
  (tbl.filter (fun r => opt r.proyecto_id && decide (1 < r.ubicaciones.length))).bind
    (fun r => r.dias.map (fun d => (idRep r, d)))

/-- Raw key stream of the s dictionary comprehension (optimizador.py lines
52-55): for each optimizable project, for each of its VARADA rows, the keys
(project, first day) and (project, last day); the dict keeps one entry per
distinct key. -/
def sKeysRaw (tbl : List Fila) (setOpt : List String) : List (String × Int) :=
  setOpt.bind (fun p =>
    (tbl.filter (fun r => decide (r.proyecto_id = p) && decide (r.tipo_desc = "VARADA"))).bind
      (fun r => [(p, r.fecha_ini), (p, r.fecha_fin)]))

theorem countP_eq_le_one_of_nodup [DecidableEq α] {l : List α} (h : l.Nodup)
    (k : α) : l.countP (fun q => decide (q = k)) ≤ 1 := by
  induction l with
  | nil => simp
  | cons a t ih =>
    rcases List.nodup_cons.mp h with ⟨ha, ht⟩
    by_cases hk : a = k
    · subst hk
      have hz : t.countP (fun q => decide (q = a)) = 0 :=
        List.countP_eq_zero.mpr (fun q hq => by
          simp only [decide_eq_true_eq]
          intro h
          exact ha (h ▸ hq))
      simp [List.countP_cons, hz]
    · simp [List.countP_cons, hk, ih ht]

/-- C9: the s dictionary holds at most one synchrolift variable per (project,
day) key: even when two distinct VARADA periods of a project share a boundary
day, the key stream deduplicates, so the daily synchrolift capacity
constraint counts at most one use by that project on that day. -/
theorem syncrolift_clave_unica (tbl : List Fila) (setOpt : List String)
    (k : String × Int) :
    (claves (sKeysRaw tbl setOpt)).countP (fun q => decide (q = k)) ≤ 1 :=
  countP_eq_le_one_of_nodup (claves_nodup (sKeysRaw tbl setOpt)) k

/-- Sort key of the optimizer-stage tables: (proyecto_id, fecha_inicio). -/
def leFila (a b : Fila) : Bool :=
  if a.proyecto_id = b.proyecto_id then decide (a.fecha_ini ≤ b.fecha_ini)
  else decide (a.proyecto_id < b.proyecto_id)

/-- Adjacent pairs of a list (the groupby shift pairing on a table sorted by
project: each row next to its predecessor). -/
def pares (l : List α) : List (α × α) :=
  l.zip l.tail

theorem mem_pares {a b : α} :
    ∀ {l : List α}, (a, b) ∈ pares l ↔ ∃ l1 l2, l = l1 ++ a :: b :: l2
  | [] => by
    constructor
    · intro h
      simp [pares] at h
    · rintro ⟨l1, l2, h⟩
      have := congrArg List.length h
      simp [List.length_append] at this
      omega
  | [x] => by
    constructor
    · intro h
      simp [pares] at h
    · rintro ⟨l1, l2, h⟩
      have := congrArg List.length h
      simp [List.length_append] at this
      omega
  | x :: y :: t => by
    have hp : pares (x :: y :: t) = (x, y) :: pares (y :: t) := rfl
    constructor
    · intro h
      rw [hp, List.mem_cons] at h
      rcases h with h | h
      · rcases Prod.mk.injEq .. ▸ h with ⟨rfl, rfl⟩
        exact ⟨[], t, rfl⟩
      · rcases (mem_pares (l := y :: t)).mp h with ⟨l1, l2, hl⟩
        exact ⟨x :: l1, l2, by simp [hl]⟩
    · rintro ⟨l1, l2, hl⟩
      rcases l1 with _ | ⟨z, l1⟩
      · simp only [List.nil_append, List.cons.injEq] at hl
        rcases hl with ⟨rfl, rfl, _⟩
        rw [hp]
        exact List.mem_cons_self _ _
      · simp only [List.cons_append, List.cons.injEq] at hl
        rcases hl with ⟨rfl, hl⟩
        rw [hp]
        exact List.mem_cons_of_mem _ ((mem_pares (l := y :: t)).mpr ⟨l1, l2, hl⟩)

/-- The Continuity Detector (crear_diccionario_periodos_ubicaciones_cruzan,
optimizador.py lines 466-482): sort the optimizable rows by (proyecto_id,
fecha_inicio); for every row whose predecessor belongs to the same project,
which starts on day 0, whose type equals the predecessor's and whose
predecessor ends on day -1, emit (row id, predecessor's declared area). -/
def posicionAnterior (opt : String → Bool) (tbl : List Fila) : List (String × String) :=
  let l := ordenar leFila (tbl.filter (fun r => opt r.proyecto_id))
  (pares l).filterMap (fun q =>
    if q.2.proyecto_id = q.1.proyecto_id ∧ q.2.fecha_ini = 0 ∧
        q.2.tipo_desc = q.1.tipo_desc ∧ q.1.fecha_fin = -1 then
      some (idRep q.2, q.1.nombre_area)
    else none)

/-- Optimizable project whose epoch-straddling period was split with the
UNASSIGNED sentinel on both halves (possible when the job JSON carries the
sentinel on the crossing period): the pre-epoch half has no concrete area. -/
def tblC3 : List Fila :=
  [⟨"PRO1", 0, -3, -1, "FLOTE", SIN_UBICACION, [], []⟩,
   ⟨"PRO1", 1, 0, 4, "FLOTE", SIN_UBICACION, rango 0 4, ["MUELLE GRANDE"]⟩]

/-- C3 counterexample: the Continuity Detector performs no concreteness check
on the predecessor's area, so a period whose pre-epoch half carries the
UNASSIGNED sentinel IS in the map (with the sentinel as its value), refuting
the claim that such a period is not in the map. -/
theorem continuidad_emite_sin_ubicacion :
    posicionAnterior (fun p => p == "PRO1") tblC3 = [("PRO1_1", SIN_UBICACION)] := by
  decide

/-- C3 amended: on a table whose optimizable rows are sorted by (proyecto_id,
fecha_inicio), the continuity map holds (p, A) exactly when p starts on day 0
and its immediate predecessor row belongs to the same project, has the same
type and ends on day -1; A is that predecessor's declared area, whether or
not it is concrete. -/
theorem continuidad_caracterizacion (opt : String → Bool) (tbl : List Fila)
    (hs : (tbl.filter (fun r => opt r.proyecto_id)).Pairwise
      (fun a b => leFila a b = true)) (pid area : String) :
    (pid, area) ∈ posicionAnterior opt tbl ↔
      ∃ l1 prev cur l2,
        tbl.filter (fun r => opt r.proyecto_id) = l1 ++ prev :: cur :: l2 ∧
        cur.proyecto_id = prev.proyecto_id ∧ cur.fecha_ini = 0 ∧
        cur.tipo_desc = prev.tipo_desc ∧ prev.fecha_fin = -1 ∧
        pid = idRep cur ∧ area = prev.nombre_area := by
  have hself : ordenar leFila (tbl.filter (fun r => opt r.proyecto_id)) =
      tbl.filter (fun r => opt r.proyecto_id) := ordenar_eq_self hs
  rw [posicionAnterior]
  simp only [hself, List.mem_filterMap]
  constructor
  · rintro ⟨⟨prev, cur⟩, hq, hf⟩
    by_cases hc : cur.proyecto_id = prev.proyecto_id ∧ cur.fecha_ini = 0 ∧
        cur.tipo_desc = prev.tipo_desc ∧ prev.fecha_fin = -1
    · rw [if_pos hc, Option.some.injEq, Prod.mk.injEq] at hf
      rcases mem_pares.mp hq with ⟨l1, l2, hl⟩
      exact ⟨l1, prev, cur, l2, hl, hc.1, hc.2.1, hc.2.2.1, hc.2.2.2,
        hf.1.symm, hf.2.symm⟩
    · rw [if_neg hc] at hf
      exact absurd hf (by simp)
  · rintro ⟨l1, prev, cur, l2, hl, h1, h2, h3, h4, rfl, rfl⟩
    refine ⟨(prev, cur), mem_pares.mpr ⟨l1, l2, hl⟩, ?_⟩
    rw [if_pos ⟨h1, h2, h3, h4⟩]

/-- Table with a concretely placed pre-epoch half, for the C3 witness. -/
def tblC3b : List Fila :=
  [⟨"PRO1", 0, -3, -1, "FLOTE", "MUELLE SUR", [], ["MUELLE SUR"]⟩,
   ⟨"PRO1", 1, 0, 4, "FLOTE", SIN_UBICACION, rango 0 4, ["MUELLE GRANDE"]⟩]

/-- Witness for the C3 characterization at a concrete sorted table. -/
theorem continuidad_caracterizacion_testigo :
    ("PRO1_1", "MUELLE SUR") ∈ posicionAnterior (fun p => p == "PRO1") tblC3b :=
  (continuidad_caracterizacion (fun p => p == "PRO1") tblC3b (by decide)
    "PRO1_1" "MUELLE SUR").mpr
    ⟨[], ⟨"PRO1", 0, -3, -1, "FLOTE", "MUELLE SUR", [], ["MUELLE SUR"]⟩,
      ⟨"PRO1", 1, 0, 4, "FLOTE", SIN_UBICACION, rango 0 4, ["MUELLE GRANDE"]⟩, [],
      by decide, rfl, rfl, rfl, rfl, rfl, rfl⟩

/-- Raw normalized periods of the C4 scenario: an optimizable project whose
epoch-straddling FLOTE period was split, with the pre-epoch half already
placed at a concrete quay. -/
def rawC4 : List Periodo :=
  [⟨"PRO1", 0, -3, -1, "FLOTE", "MUELLE SUR"⟩,
   ⟨"PRO1", 1, 0, 4, "FLOTE", SIN_UBICACION⟩]

/-- The optimizer table of the C4 scenario, produced by the actual pipeline
(normalize, then derive dias and ubicaciones) with a single quay long enough
for the vessel, so the day-0 period has exactly one candidate location. -/
def tblC4 : List Fila :=
  (normalizar (fun p => p == "PRO1") rawC4).map
    (derivar (fun _ => 100) (fun _ => 15) [("MUELLE GRANDE", 200)] [] (120, 22))

/-- True when constraint family Movimiento_dia_0 (optimizador.py lines
182-188) can be built: every period in the continuity map must have a day-0
movement variable, since the source indexes m[(p_1, 0)] without a guard. -/
def dia0Construible (opt : String → Bool) (tbl : List Fila) : Bool :=
  (posicionAnterior opt tbl).all (fun q => decide ((q.1, (0 : Int)) ∈ mKeys opt tbl))

/-- C4: in the C4 scenario the continuity map is nonempty but its period has
a single candidate location, so no m variable exists on day 0 and building
constraint Movimiento_dia_0 fails (a KeyError in the source), contradicting
the claim that the variable always exists and construction never fails. -/
theorem movimiento_dia0_ausente :
    dia0Construible (fun p => p == "PRO1") tblC4 = false ∧
      posicionAnterior (fun p => p == "PRO1") tblC4 = [("PRO1_1", "MUELLE SUR")] := by
  constructor
  · decide
  · decide

theorem mem_rango {f l d : Int} : d ∈ rango f l ↔ f ≤ d ∧ d ≤ l := by
  constructor
  · intro h
    obtain ⟨i, hi, hd⟩ := List.mem_map.mp h
    rw [List.mem_range] at hi
    omega
  · rintro ⟨h1, h2⟩
    exact List.mem_map.mpr ⟨(d - f).toNat, List.mem_range.mpr (by omega), by omega⟩

theorem rango_eq_cons {f l : Int} (h : f ≤ l) :
    rango f l = f :: rango (f + 1) l := by
  have hn : (l + 1 - f).toNat = (l + 1 - (f + 1)).toNat + 1 := by omega
  simp only [rango, hn, List.range_succ_eq_map, List.map_cons, List.map_map]
  refine congrArg₂ List.cons (by simp) ?_
  apply List.map_congr_left
  intro i _
  simp only [Function.comp_apply]
  push_cast
  ring

/-- Membership in the tail of a derived day list gives membership of the day
and of the previous day. -/
theorem dias_tail {r : Fila} (hd : r.dias = diasFila r) {d : Int}
    (h : d ∈ r.dias.tail) : d ∈ r.dias ∧ d - 1 ∈ r.dias := by
  rw [hd] at h ⊢
  unfold diasFila at h ⊢
  by_cases hi : (0 : Int) ≤ r.fecha_ini
  · rw [if_pos hi] at h ⊢
    by_cases hfl : r.fecha_ini ≤ r.fecha_fin
    · rw [rango_eq_cons hfl] at h
      simp only [List.tail_cons] at h
      have hm := mem_rango.mp h
      exact ⟨mem_rango.mpr (by omega), mem_rango.mpr (by omega)⟩
    · rw [rango_vacio (by omega)] at h
      simp at h
  · rw [if_neg hi] at h
    simp at h

theorem mem_xKeys {opt : String → Bool} {tbl : List Fila} {r : Fila}
    (hr : r ∈ tbl) (hopt : opt r.proyecto_id = true) {d : Int} (hd : d ∈ r.dias)
    {loc : String} (hl : loc ∈ r.ubicaciones) : (idRep r, d, loc) ∈ xKeys opt tbl := by
  simp only [xKeys, List.mem_bind, List.mem_filter, List.mem_map]
  exact ⟨r, ⟨hr, hopt⟩, d, hd, loc, hl, rfl⟩

theorem mem_mKeys {opt : String → Bool} {tbl : List Fila} {r : Fila}
    (hr : r ∈ tbl) (hopt : opt r.proyecto_id = true)
    (hmulti : 1 < r.ubicaciones.length) {d : Int} (hd : d ∈ r.dias) :
    (idRep r, d) ∈ mKeys opt tbl := by
  simp only [mKeys, List.mem_bind, List.mem_filter, List.mem_map,
    Bool.and_eq_true, decide_eq_true_eq]
  exact ⟨r, ⟨hr, hopt, hmulti⟩, d, hd, rfl⟩

theorem mem_le_suma {f : α → Int} {l : List α} (h0 : ∀ e ∈ l, 0 ≤ f e)
    {a : α} (ha : a ∈ l) : f a ≤ (l.map f).sum :=
  List.single_le_sum (fun x hx => by
      rcases List.mem_map.mp hx with ⟨e, he, rfl⟩
      exact h0 e he)
    (f a) (List.mem_map.mpr ⟨a, ha, rfl⟩)

theorem suma_dos_mem {f : α → Int} :
    ∀ {l : List α}, (∀ e ∈ l, 0 ≤ f e) → ∀ {a b : α}, a ∈ l → b ∈ l → a ≠ b →
      f a + f b ≤ (l.map f).sum := by
  intro l
  induction l with
  | nil => intro _ a b ha _ _; exact absurd ha (List.not_mem_nil a)
  | cons x t ih =>
    intro h0 a b ha hb hne
    have h0t : ∀ e ∈ t, 0 ≤ f e := fun e he => h0 e (List.mem_cons_of_mem x he)
    simp only [List.map_cons, List.sum_cons]
    rcases List.mem_cons.mp ha with ha1 | ha1
    · subst ha1
      rcases List.mem_cons.mp hb with hb1 | hb1
      · exact absurd hb1.symm hne
      · have := mem_le_suma h0t hb1
        omega
    · rcases List.mem_cons.mp hb with hb1 | hb1
      · subst hb1
        have := mem_le_suma h0t ha1
        omega
      · have := ih h0t ha1 hb1 hne
        have hx := h0 x (List.mem_cons_self x t)
        omega

/-- A candidate solution of the model: integer values for the x, y and m
variables, addressed by the same keys as the PuLP dictionaries. -/
structure Solucion where
  xv : String × Int × String → Int
  yv : String → Int
  mv : String × Int → Int

/-- The x variables of the model are binary (cat='Binary' in the source). -/
def binariasX (s : Solucion) (opt : String → Bool) (tbl : List Fila) : Prop :=
  ∀ k ∈ xKeys opt tbl, 0 ≤ s.xv k ∧ s.xv k ≤ 1

/-- The m variables of the model are binary. -/
def binariasM (s : Solucion) (opt : String → Bool) (tbl : List Fila) : Prop :=
  ∀ k ∈ mKeys opt tbl, 0 ≤ s.mv k ∧ s.mv k ≤ 1

/-- The y variables of the model are binary. -/
def binariasY (s : Solucion) (opt : String → Bool) (tbl : List Fila) : Prop :=
  ∀ r ∈ tbl, opt r.proyecto_id = true →
    0 ≤ s.yv r.proyecto_id ∧ s.yv r.proyecto_id ≤ 1

/-- Constraint family Asignacion (optimizador.py lines 141-148): for every
optimizable row and every covered day, the candidate locations chosen that
day sum to y of the project. -/
def restriccionAsignacion (s : Solucion) (opt : String → Bool) (tbl : List Fila) : Prop :=
  ∀ r ∈ tbl, opt r.proyecto_id = true → ∀ d ∈ r.dias,
    (r.ubicaciones.map (fun loc => s.xv (idRep r, d, loc))).sum = s.yv r.proyecto_id

/-- Constraint family Movimiento mayor (optimizador.py lines 161-169): for
every optimizable multi-candidate row, every day from the second onward and
every candidate location, m bounds the increase of x from the previous day. -/
def restriccionMovimientoMayor (s : Solucion) (opt : String → Bool) (tbl : List Fila) : Prop :=
  ∀ r ∈ tbl, opt r.proyecto_id = true → 1 < r.ubicaciones.length →
    ∀ d ∈ r.dias.tail, ∀ loc ∈ r.ubicaciones,
      s.xv (idRep r, d, loc) - s.xv (idRep r, d - 1, loc) ≤ s.mv (idRep r, d)

/-- Constraint family Movimiento menor (optimizador.py lines 171-179): same
domain, m is at most 2 minus the two consecutive occupancies. -/
def restriccionMovimientoMenor (s : Solucion) (opt : String → Bool) (tbl : List Fila) : Prop :=
  ∀ r ∈ tbl, opt r.proyecto_id = true → 1 < r.ubicaciones.length →
    ∀ d ∈ r.dias.tail, ∀ loc ∈ r.ubicaciones,
      s.mv (idRep r, d) ≤ 2 - s.xv (idRep r, d, loc) - s.xv (idRep r, d - 1, loc)

/-- C2: in every feasible solution of the built constraint system, for every
multi-candidate optimizable period and every covered day from the second
onward, the movement variable equals 1 exactly when the location occupied
that day differs from the location occupied the previous day. -/
theorem movimiento_sii_cambio (s : Solucion) (opt : String → Bool) (tbl : List Fila)
    (hbx : binariasX s opt tbl) (hbm : binariasM s opt tbl) (hby : binariasY s opt tbl)
    (ha : restriccionAsignacion s opt tbl)
    (hge : restriccionMovimientoMayor s opt tbl)
    (hle : restriccionMovimientoMenor s opt tbl)
    (r : Fila) (hr : r ∈ tbl) (hopt : opt r.proyecto_id = true)
    (hmulti : 1 < r.ubicaciones.length) (hdias : r.dias = diasFila r)
    (d : Int) (hdt : d ∈ r.dias.tail)
    (l1 l2 : String) (hl1 : l1 ∈ r.ubicaciones) (hl2 : l2 ∈ r.ubicaciones)
    (hx1 : s.xv (idRep r, d, l1) = 1) (hx2 : s.xv (idRep r, d - 1, l2) = 1) :
    s.mv (idRep r, d) = 1 ↔ l1 ≠ l2 := by
  obtain ⟨hdm, hdm1⟩ := dias_tail hdias hdt
  have hmK := mem_mKeys hr hopt hmulti hdm
  have hmb := hbm _ hmK
  constructor
  · intro hm1 heq
    subst heq
    have := hle r hr hopt hmulti d hdt l1 hl1
    rw [hx1, hx2] at this
    omega
  · intro hne
    have hnn : ∀ e ∈ r.ubicaciones, 0 ≤ s.xv (idRep r, d - 1, e) := fun e he =>
      (hbx _ (mem_xKeys hr hopt hdm1 he)).1
    have hsum := ha r hr hopt (d - 1) hdm1
    have hy := hby r hr hopt
    have htwo := suma_dos_mem hnn hl1 hl2 hne
    rw [hsum] at htwo
    have hz : s.xv (idRep r, d - 1, l1) = 0 := by
      have := hnn l1 hl1
      omega
    have := hge r hr hopt hmulti d hdt l1 hl1
    rw [hx1, hz] at this
    omega

/-- The concrete table of the C2 witness: one optimizable two-day period with
two candidate quays. -/
def tblW2 : List Fila :=
  [⟨"PRO1", 0, 0, 1, "FLOTE", SIN_UBICACION, [0, 1], ["MUELLE NORTE", "MUELLE SUR"]⟩]

/-- The concrete solution of the C2 witness: NORTE on day 0, SUR on day 1,
one movement charged on day 1. -/
def solW2 : Solucion :=
  ⟨fun k => if k = ("PRO1_0", 0, "MUELLE NORTE") ∨ k = ("PRO1_0", 1, "MUELLE SUR")
      then 1 else 0,
    fun p => if p = "PRO1" then 1 else 0,
    fun k => if k = ("PRO1_0", 1) then 1 else 0⟩

/-- Witness for C2: at the concrete feasible solution the movement variable
on day 1 is 1, and indeed the chosen locations on days 1 and 0 differ. -/
theorem movimiento_sii_cambio_testigo :
    solW2.mv ("PRO1_0", 1) = 1 ↔ "MUELLE SUR" ≠ "MUELLE NORTE" :=
  movimiento_sii_cambio solW2 (fun p => p == "PRO1") tblW2
    (by unfold binariasX; decide) (by unfold binariasM; decide)
    (by unfold binariasY; decide) (by unfold restriccionAsignacion; decide)
    (by unfold restriccionMovimientoMayor; decide)
    (by unfold restriccionMovimientoMenor; decide)
    ⟨"PRO1", 0, 0, 1, "FLOTE", SIN_UBICACION, [0, 1], ["MUELLE NORTE", "MUELLE SUR"]⟩
    (by decide) (by decide) (by decide) (by decide) 1 (by decide)
    "MUELLE SUR" "MUELLE NORTE" (by decide) (by decide) (by decide) (by decide)

theorem claves_aux_subset [DecidableEq α] :
    ∀ (l acc : List α) (x : α),
      x ∈ l.foldl (fun acc k => if k ∈ acc then acc else acc ++ [k]) acc →
      x ∈ acc ∨ x ∈ l
  | [], _, _, h => Or.inl h
  | k :: t, acc, x, h => by
    by_cases hk : k ∈ acc
    · rcases claves_aux_subset t acc x (by simpa [List.foldl_cons, hk] using h) with h1 | h1
      · exact Or.inl h1
      · exact Or.inr (List.mem_cons_of_mem _ h1)
    · rcases claves_aux_subset t (acc ++ [k]) x
        (by simpa [List.foldl_cons, hk] using h) with h1 | h1
      · rcases List.mem_append.mp h1 with h2 | h2
        · exact Or.inl h2
        · rcases List.mem_singleton.mp h2 with rfl
          exact Or.inr (List.mem_cons_self _ _)
      · exact Or.inr (List.mem_cons_of_mem _ h1)

theorem claves_subset [DecidableEq α] {l : List α} {x : α} (h : x ∈ claves l) :
    x ∈ l :=
  (claves_aux_subset l [] x h).resolve_left (List.not_mem_nil x)

/-- A row of the result table built by _crear_dataframe_resultados. -/
structure FilaRes where
  proyecto_id : String
  periodo_id : Nat
  id_rep : String
  ubicacion : String
  fecha_ini : Int
  fecha_fin : Int
deriving DecidableEq

/-- The (period, day, location) triples whose x variable is 1 in the solved
model, collected in the same nesting order as the x dictionary
(optimizador.py lines 296-302). -/
def positivos (xv : String × Int × String → Bool) (opt : String → Bool)
    (tbl : List Fila) : List (Fila × Int × String) :=
  (tbl.filter (fun r => opt r.proyecto_id)).bind (fun r =>
    r.dias.bind (fun d =>
      (r.ubicaciones.filter (fun loc => xv (idRep r, d, loc))).map (fun loc => (r, d, loc))))

/-- The groupby key of line 304: (proyecto_id, periodo_id,
id_proyecto_reparacion, ubicacion). -/
def llaveG (q : Fila × Int × String) : String × Nat × String × String :=
  (q.1.proyecto_id, q.1.periodo_id, idRep q.1, q.2.2)

/-- Lexicographic order on the groupby keys (pandas sorts groups by key). -/
def leLlave (a b : String × Nat × String × String) : Bool :=
  if a.1 = b.1 then
    if a.2.1 = b.2.1 then
      if a.2.2.1 = b.2.2.1 then decide (a.2.2.2 ≤ b.2.2.2)
      else decide (a.2.2.1 < b.2.2.1)
    else decide (a.2.1 < b.2.1)
  else decide (a.1 < b.1)

def minL : List Int → Int
  | [] => 0
  | h :: t => t.foldl min h

def maxL : List Int → Int
  | [] => 0
  | h :: t => t.foldl max h

/-- The aggregated result rows of line 304: one row per distinct groupby key,
with fecha_inicio the earliest and fecha_fin the latest day of the group. -/
def filasAgg (xv : String × Int × String → Bool) (opt : String → Bool)
    (tbl : List Fila) : List FilaRes :=
  (ordenar leLlave (claves ((positivos xv opt tbl).map llaveG))).map (fun k =>
    let ds := ((positivos xv opt tbl).filter
      (fun q => decide (llaveG q = k))).map (fun q => q.2.1)
    ⟨k.1, k.2.1, k.2.2.1, k.2.2.2, minL ds, maxL ds⟩)

/-- The passthrough row appended for an optimizable period absent from the
aggregation (optimizador.py lines 308-315): its stored declared area and
its stored day span. -/
def filaSinAsignar (r : Fila) : FilaRes :=
  ⟨r.proyecto_id, r.periodo_id, idRep r, r.nombre_area, r.fecha_ini, r.fecha_fin⟩

/-- One step of the passthrough loop: append the row unless some result row
already carries this id_proyecto_reparacion. -/
def pasoRelleno (acc : List FilaRes) (r : Fila) : List FilaRes :=
  if idRep r ∈ acc.map (fun q => q.id_rep) then acc else acc ++ [filaSinAsignar r]

/-- The result rows after the passthrough loop over the optimizable periods
(optimizador.py lines 306-315). -/
def conRelleno (xv : String × Int × String → Bool) (opt : String → Bool)
    (tbl : List Fila) : List FilaRes :=
  (tbl.filter (fun r => opt r.proyecto_id)).foldl pasoRelleno (filasAgg xv opt tbl)

/-- Final sort key of line 320: (proyecto_id, periodo_id). -/
def leRes (a b : FilaRes) : Bool :=
  if a.proyecto_id = b.proyecto_id then decide (a.periodo_id ≤ b.periodo_id)
  else decide (a.proyecto_id < b.proyecto_id)

/-- The Result Consolidator (_crear_dataframe_resultados, optimizador.py
lines 288-322): aggregate the positive x assignments into intervals, append
passthrough rows for absent optimizable periods, convert day offsets to
calendar dates (epoch + day) and sort by (proyecto_id, periodo_id). -/
def consolidar (xv : String × Int × String → Bool) (opt : String → Bool)
    (tbl : List Fila) (epoca : Int) : List FilaRes :=
  ordenar leRes ((conRelleno xv opt tbl).map (fun q =>
    { q with fecha_ini := epoca + q.fecha_ini, fecha_fin := epoca + q.fecha_fin }))

theorem relleno_general :
    ∀ (l : List Fila) (base : List FilaRes),
      ∃ extra, l.foldl pasoRelleno base = base ++ extra ∧
        ∀ q ∈ extra, ∃ r ∈ l, q = filaSinAsignar r
  | [], base => ⟨[], by simp, by simp⟩
  | r :: t, base => by
    by_cases hm : idRep r ∈ base.map (fun q => q.id_rep)
    · obtain ⟨extra, he, hq⟩ := relleno_general t base
      refine ⟨extra, ?_, ?_⟩
      · simp [List.foldl_cons, pasoRelleno, hm, he]
      · intro q hqe
        obtain ⟨rr, hrr, hqq⟩ := hq q hqe
        exact ⟨rr, List.mem_cons_of_mem _ hrr, hqq⟩
    · obtain ⟨extra, he, hq⟩ := relleno_general t (base ++ [filaSinAsignar r])
      refine ⟨filaSinAsignar r :: extra, ?_, ?_⟩
      · simp only [List.foldl_cons, pasoRelleno, hm, if_false]
        rw [he]
        simp
      · intro q hqe
        rcases List.mem_cons.mp hqe with rfl | hqe
        · exact ⟨r, List.mem_cons_self r t, rfl⟩
        · obtain ⟨rr, hrr, hqq⟩ := hq q hqe
          exact ⟨rr, List.mem_cons_of_mem _ hrr, hqq⟩

theorem mem_positivos {xv : String × Int × String → Bool} {opt : String → Bool}
    {tbl : List Fila} {q : Fila × Int × String} (h : q ∈ positivos xv opt tbl) :
    q.1 ∈ tbl ∧ opt q.1.proyecto_id = true ∧ q.2.1 ∈ q.1.dias ∧
      q.2.2 ∈ q.1.ubicaciones := by
  simp only [positivos, List.mem_bind, List.mem_filter, List.mem_map] at h
  obtain ⟨r, ⟨hr, hropt⟩, d, hd, loc, ⟨hloc, _⟩, rfl⟩ := h
  exact ⟨hr, hropt, hd, hloc⟩

theorem mem_filasAgg {xv : String × Int × String → Bool} {opt : String → Bool}
    {tbl : List Fila} {row : FilaRes} (h : row ∈ filasAgg xv opt tbl) :
    ∃ q ∈ positivos xv opt tbl, row.id_rep = idRep q.1 := by
  unfold filasAgg at h
  obtain ⟨k, hk, rfl⟩ := List.mem_map.mp h
  have hk2 := ((ordenar_perm leLlave _).mem_iff).mp hk
  obtain ⟨q, hq, hkq⟩ := List.mem_map.mp (claves_subset hk2)
  refine ⟨q, hq, ?_⟩
  rw [← hkq]
  rfl

/-- C1 amended helper: every row of the consolidated result table stems from
an optimizable period of the table. -/
theorem resultados_solo_optimizables (xv : String × Int × String → Bool)
    (opt : String → Bool) (tbl : List Fila) (epoca : Int) (row : FilaRes)
    (h : row ∈ consolidar xv opt tbl epoca) :
    ∃ r ∈ tbl, opt r.proyecto_id = true ∧ row.id_rep = idRep r := by
  unfold consolidar at h
  obtain ⟨q, hq, rfl⟩ := List.mem_map.mp (((ordenar_perm leRes _).mem_iff).mp h)
  unfold conRelleno at hq
  obtain ⟨extra, he, hex⟩ :=
    relleno_general (tbl.filter fun r => opt r.proyecto_id) (filasAgg xv opt tbl)
  rw [he] at hq
  rcases List.mem_append.mp hq with hq | hq
  · obtain ⟨p, hp, hid⟩ := mem_filasAgg hq
    have hm := mem_positivos hp
    exact ⟨p.1, hm.1, hm.2.1, hid⟩
  · obtain ⟨rr, hrr, rfl⟩ := hex q hq
    have hmf := List.mem_filter.mp hrr
    exact ⟨rr, hmf.1, hmf.2, rfl⟩

/-- Table of the C1 counterexample: a single non-optimizable period declared
at MUELLE SUR, covering days 0..5 of the horizon. -/
def tblC1 : List Fila :=
  [⟨"PRO3", 0, 0, 5, "FLOTE", "MUELLE SUR", rango 0 5, ["MUELLE SUR"]⟩]

/-- C1 counterexample: the Result Consolidator of optimizador.py emits no row
at all for a non-optimizable period overlapping the horizon (its loops range
over optimizable rows only), refuting the claim that the committed row
appears verbatim in the result table. -/
theorem resultados_omite_confirmado :
    consolidar (fun _ => false) (fun _ => false) tblC1 0 = [] ∧
      (⟨"PRO3", 0, 0, 5, "FLOTE", "MUELLE SUR", rango 0 5, ["MUELLE SUR"]⟩ : Fila) ∈ tblC1 ∧
      (0 : Int) ∈ (⟨"PRO3", 0, 0, 5, "FLOTE", "MUELLE SUR", rango 0 5,
        ["MUELLE SUR"]⟩ : Fila).dias := by
  refine ⟨by decide, by decide, by decide⟩

/-- Witness for the amended C1 at a concrete table with one optimizable and
one non-optimizable period: the single result row stems from the optimizable
period PRO1_0. -/
theorem resultados_solo_optimizables_testigo :
    ∃ r ∈ [(⟨"PRO1", 0, 0, 1, "FLOTE", SIN_UBICACION, [0, 1],
        ["MUELLE NORTE", "MUELLE SUR"]⟩ : Fila),
      ⟨"PRO3", 0, 0, 5, "FLOTE", "MUELLE SUR", rango 0 5, ["MUELLE SUR"]⟩],
      (fun p => p == "PRO1") r.proyecto_id = true ∧
        (⟨"PRO1", 0, "PRO1_0", SIN_UBICACION, 1000, 1001⟩ : FilaRes).id_rep = idRep r :=
  resultados_solo_optimizables (fun _ => false) (fun p => p == "PRO1")
    [⟨"PRO1", 0, 0, 1, "FLOTE", SIN_UBICACION, [0, 1], ["MUELLE NORTE", "MUELLE SUR"]⟩,
      ⟨"PRO3", 0, 0, 5, "FLOTE", "MUELLE SUR", rango 0 5, ["MUELLE SUR"]⟩]
    1000 ⟨"PRO1", 0, "PRO1_0", SIN_UBICACION, 1000, 1001⟩ (by decide)

/-- C10: every optimizable period whose day list is empty (it lies entirely
before day 0, having no assignment variables) yields exactly one result row,
carrying the period's stored declared area and its stored first..last day
span shifted by the epoch, and those dates fall before the epoch. -/
theorem periodo_sin_dias_una_fila (xv : String × Int × String → Bool)
    (opt : String → Bool) (tbl : List Fila) (epoca : Int) (r : Fila)
    (hr : r ∈ tbl) (hopt : opt r.proyecto_id = true)
    (hnodup : (tbl.map idRep).Nodup) (hdias : r.dias = [])
    (hder : r.dias = diasFila r) (hvalid : r.fecha_ini ≤ r.fecha_fin)
    (hnc : ¬(r.fecha_ini < 0 ∧ 0 ≤ r.fecha_fin)) :
    (consolidar xv opt tbl epoca).filter (fun q => decide (q.id_rep = idRep r)) =
      [⟨r.proyecto_id, r.periodo_id, idRep r, r.nombre_area,
        epoca + r.fecha_ini, epoca + r.fecha_fin⟩] ∧
      epoca + r.fecha_fin < epoca := by
  have hfin : r.fecha_fin < 0 := by
    by_cases hi : (0 : Int) ≤ r.fecha_ini
    · exfalso
      have hmem : r.fecha_ini ∈ rango r.fecha_ini r.fecha_fin :=
        mem_rango.mpr ⟨le_refl _, hvalid⟩
      have hnil : diasFila r = [] := hder ▸ hdias
      rw [diasFila, if_pos hi] at hnil
      rw [hnil] at hmem
      exact List.not_mem_nil _ hmem
    · push_neg at hi
      by_cases hf : (0 : Int) ≤ r.fecha_fin
      · exact absurd ⟨hi, hf⟩ hnc
      · omega
  have hinj := List.inj_on_of_nodup_map hnodup
  -- no aggregated row carries this id, since the period has no x variables
  have hagg : ∀ row ∈ filasAgg xv opt tbl, ¬(row.id_rep = idRep r) := by
    intro row hrow heq
    obtain ⟨q, hq, hid⟩ := mem_filasAgg hrow
    have hm := mem_positivos hq
    have hq1 : q.1 = r := hinj hm.1 hr (by rw [← hid, heq])
    rw [hq1, hdias] at hm
    exact List.not_mem_nil _ hm.2.2.1
  have hbase : (filasAgg xv opt tbl).filter
      (fun q => decide (q.id_rep = idRep r)) = [] :=
    List.filter_eq_nil_iff.mpr (fun a ha => by
      simpa using hagg a ha)
  -- split the optimizable rows around r
  have hrf : r ∈ tbl.filter (fun x => opt x.proyecto_id) :=
    List.mem_filter.mpr ⟨hr, hopt⟩
  obtain ⟨l1, l2, hfl⟩ := List.append_of_mem hrf
  have hflnodup : ((tbl.filter (fun x => opt x.proyecto_id)).map idRep).Nodup :=
    hnodup.sublist ((List.filter_sublist tbl).map idRep)
  rw [hfl, List.map_append, List.map_cons] at hflnodup
  obtain ⟨hn1, hn2, hdisj⟩ := List.nodup_append.mp hflnodup
  have hne1 : ∀ rr ∈ l1, idRep rr ≠ idRep r := by
    intro rr hrr heq
    exact hdisj (List.mem_map.mpr ⟨rr, hrr, heq⟩) (List.mem_cons_self _ _)
  have hne2 : ∀ rr ∈ l2, idRep rr ≠ idRep r := by
    intro rr hrr heq
    have := (List.nodup_cons.mp hn2).1
    exact this (heq ▸ List.mem_map.mpr ⟨rr, hrr, rfl⟩)
  -- run the passthrough fold
  obtain ⟨e1, he1, hq1⟩ := relleno_general l1 (filasAgg xv opt tbl)
  have he1ne : ∀ q ∈ e1, ¬(q.id_rep = idRep r) := by
    intro q hq heq
    obtain ⟨rr, hrr, rfl⟩ := hq1 q hq
    exact hne1 rr hrr heq
  have hcond : ¬(idRep r ∈ (filasAgg xv opt tbl ++ e1).map (fun q => q.id_rep)) := by
    intro hmem
    obtain ⟨q, hqm, hqid⟩ := List.mem_map.mp hmem
    rcases List.mem_append.mp hqm with hqm | hqm
    · exact hagg q hqm hqid
    · exact he1ne q hqm hqid
  obtain ⟨e2, he2, hq2⟩ :=
    relleno_general l2 ((filasAgg xv opt tbl ++ e1) ++ [filaSinAsignar r])
  have he2ne : ∀ q ∈ e2, ¬(q.id_rep = idRep r) := by
    intro q hq heq
    obtain ⟨rr, hrr, rfl⟩ := hq2 q hq
    exact hne2 rr hrr heq
  have htotal : conRelleno xv opt tbl =
      ((filasAgg xv opt tbl ++ e1) ++ [filaSinAsignar r]) ++ e2 := by
    unfold conRelleno
    rw [hfl, List.foldl_append, he1, List.foldl_cons]
    rw [show pasoRelleno (filasAgg xv opt tbl ++ e1) r =
        (filasAgg xv opt tbl ++ e1) ++ [filaSinAsignar r] from by
      unfold pasoRelleno
      rw [if_neg hcond]]
    exact he2
  -- the filtered passthrough list is the single row for r
  have hfiltotal : (conRelleno xv opt tbl).filter
      (fun q => decide (q.id_rep = idRep r)) = [filaSinAsignar r] := by
    have hfe1 : e1.filter (fun q => decide (q.id_rep = idRep r)) = [] :=
      List.filter_eq_nil_iff.mpr (fun a ha => by simpa using he1ne a ha)
    have hfe2 : e2.filter (fun q => decide (q.id_rep = idRep r)) = [] :=
      List.filter_eq_nil_iff.mpr (fun a ha => by simpa using he2ne a ha)
    have hfr : ([filaSinAsignar r]).filter (fun q => decide (q.id_rep = idRep r)) =
        [filaSinAsignar r] := by
      simp [filaSinAsignar]
    rw [htotal, List.filter_append, List.filter_append, List.filter_append,
      hbase, hfe1, hfe2, hfr]
    simp
  constructor
  · have hperm := (ordenar_perm leRes ((conRelleno xv opt tbl).map (fun q =>
      ({ q with fecha_ini := epoca + q.fecha_ini, fecha_fin := epoca + q.fecha_fin }
        : FilaRes)))).filter (fun q => decide (q.id_rep = idRep r))
    rw [List.filter_map] at hperm
    have hcomp : (conRelleno xv opt tbl).filter
        ((fun q => decide (q.id_rep = idRep r)) ∘ (fun q =>
          ({ q with fecha_ini := epoca + q.fecha_ini, fecha_fin := epoca + q.fecha_fin }
            : FilaRes))) =
        (conRelleno xv opt tbl).filter (fun q => decide (q.id_rep = idRep r)) :=
      List.filter_congr (fun q _ => rfl)
    rw [hcomp, hfiltotal] at hperm
    exact List.perm_singleton.mp hperm
  · omega

/-- Witness for C10: the pre-epoch half PRO1_0 (days -3..-1, placed at
MUELLE SUR) has an empty day list and yields exactly one result row with its
stored area and its span shifted by the epoch day 100. -/
theorem periodo_sin_dias_una_fila_testigo :
    (consolidar (fun k => decide (k.2.2 = "MUELLE GRANDE")) (fun p => p == "PRO1")
        [⟨"PRO1", 0, -3, -1, "FLOTE", "MUELLE SUR", [], ["MUELLE SUR"]⟩,
          ⟨"PRO1", 1, 0, 4, "FLOTE", SIN_UBICACION, rango 0 4, ["MUELLE GRANDE"]⟩]
        100).filter (fun q => decide (q.id_rep =
          idRep ⟨"PRO1", 0, -3, -1, "FLOTE", "MUELLE SUR", [], ["MUELLE SUR"]⟩)) =
      [⟨"PRO1", 0, idRep ⟨"PRO1", 0, -3, -1, "FLOTE", "MUELLE SUR", [], ["MUELLE SUR"]⟩,
        "MUELLE SUR", 100 + -3, 100 + -1⟩] ∧
      (100 : Int) + -1 < 100 :=
  periodo_sin_dias_una_fila (fun k => decide (k.2.2 = "MUELLE GRANDE"))
    (fun p => p == "PRO1")
    [⟨"PRO1", 0, -3, -1, "FLOTE", "MUELLE SUR", [], ["MUELLE SUR"]⟩,
      ⟨"PRO1", 1, 0, 4, "FLOTE", SIN_UBICACION, rango 0 4, ["MUELLE GRANDE"]⟩]
    100 ⟨"PRO1", 0, -3, -1, "FLOTE", "MUELLE SUR", [], ["MUELLE SUR"]⟩
    (by decide) (by decide) (by decide) (by decide) (by decide) (by decide) (by decide)

theorem claves_aux_mem [DecidableEq α] :
    ∀ (l acc : List α) (x : α), (x ∈ acc ∨ x ∈ l) →
      x ∈ l.foldl (fun acc k => if k ∈ acc then acc else acc ++ [k]) acc
  | [], _, _, h => h.resolve_right (fun hx => List.not_mem_nil _ hx)
  | k :: t, acc, x, h => by
    by_cases hk : k ∈ acc
    · simp only [List.foldl_cons, if_pos hk]
      apply claves_aux_mem t acc x
      rcases h with h | h
      · exact Or.inl h
      · rcases List.mem_cons.mp h with rfl | h
        · exact Or.inl hk
        · exact Or.inr h
    · simp only [List.foldl_cons, if_neg hk]
      apply claves_aux_mem t (acc ++ [k]) x
      rcases h with h | h
      · exact Or.inl (List.mem_append.mpr (Or.inl h))
      · rcases List.mem_cons.mp h with rfl | h
        · exact Or.inl (List.mem_append.mpr (Or.inr (List.mem_singleton.mpr rfl)))
        · exact Or.inr h

theorem claves_complete [DecidableEq α] {l : List α} {x : α} (h : x ∈ l) :
    x ∈ claves l :=
  claves_aux_mem l [] x (Or.inr h)

/-- The exploded committed-occupancy stream of
crear_diccionario_longitudes_confirmados (optimizador.py lines 384-385):
for every non-optimizable row and every covered day, the key (day, area)
paired with the project's eslora. -/
def explotados (eslo : String → Int) (opt : String → Bool)
    (tbl : List Fila) : List ((Int × String) × Int) :=
  (tbl.filter (fun r => !opt r.proyecto_id)).bind (fun r =>
    r.dias.map (fun d => ((d, r.nombre_area), eslo r.proyecto_id)))

/-- Total committed eslora at a (day, area) key (the groupby sum). -/
def sumaLlave (l : List ((Int × String) × Int)) (k : Int × String) : Int :=
  ((l.filter (fun q => decide (q.1 = k))).map (fun q => q.2)).sum

/-- crear_diccionario_longitudes_confirmados (optimizador.py lines 384-392):
committed occupied length per (day, area), capped by the location's length
when the area is a known location, and UNCAPPED when the area is unknown
(max_longitud.get(ubi, float("inf")) falls back to infinity). -/
def longitudesConfirmados (eslo : String → Int) (opt : String → Bool)
    (tbl : List Fila) (ubicLong : List (String × Int)) :
    List ((Int × String) × Int) :=
  (claves ((explotados eslo opt tbl).map (fun q => q.1))).map (fun k =>
    match ubicLong.lookup k.2 with
    | some longitud => (k, min (sumaLlave (explotados eslo opt tbl) k) longitud)
    | none => (k, sumaLlave (explotados eslo opt tbl) k))

/-- Period table of the C7 counterexample: a non-optimizable project with a
period whose last day precedes its first day, and with a declared area that
is not a known location; both invalid conditions of the claim. -/
def rawC7 : List Periodo :=
  [⟨"PRO9", 0, 5, 3, "FLOTE", "ZONA MISTERIOSA"⟩,
   ⟨"PRO9", 1, 0, 2, "FLOTE", "ZONA MISTERIOSA"⟩]

/-- The optimizer table derived from rawC7 by the actual pipeline, with a
single known quay (the declared area is unknown). -/
def tblC7 : List Fila :=
  (normalizar (fun _ => false) rawC7).map
    (derivar (fun _ => 120) (fun _ => 20) [("MUELLE SUR", 130)] [] (120, 22))

/-- C7 counterexample: preprocessing performs no validation whatsoever.  The
table containing a period with last_day < first_day and an unknown declared
area on a non-optimizable project flows through the whole normalization as an
ordinary value (the invalid period simply receives an empty day list), and
the committed-lengths table hands the solver an UNCAPPED entry for the
unknown area; no INVALID_INPUT error exists and the run proceeds to solving,
refuting the claim that preprocessing fails before the solver is invoked. -/
theorem preprocesado_no_valida :
    normalizar (fun _ => false) rawC7 =
      [⟨"PRO9", 0, 0, 2, "FLOTE", "ZONA MISTERIOSA"⟩,
       ⟨"PRO9", 1, 5, 3, "FLOTE", "ZONA MISTERIOSA"⟩] ∧
      longitudesConfirmados (fun _ => 120) (fun _ => false) tblC7 [("MUELLE SUR", 130)] =
        [((0, "ZONA MISTERIOSA"), 120), ((1, "ZONA MISTERIOSA"), 120),
          ((2, "ZONA MISTERIOSA"), 120)] := by
  constructor
  · decide
  · decide

/-- C7 amended: the code validates nothing.  A period with last_day <
first_day silently yields an empty derived day list, and a (day, area) key
whose area is not a known location is carried into the committed-lengths
table with its raw, uncapped sum (or does not occur at all); in both cases
preprocessing completes normally and the run proceeds to the solver. -/
theorem sin_validacion :
    (∀ r : Periodo, r.fecha_fin < r.fecha_ini → diasPeriodo r = []) ∧
      (∀ (eslo : String → Int) (opt : String → Bool) (tbl : List Fila)
          (ubicLong : List (String × Int)) (k : Int × String),
        ubicLong.lookup k.2 = none →
        (k, sumaLlave (explotados eslo opt tbl) k) ∈
            longitudesConfirmados eslo opt tbl ubicLong ∨
          k ∉ (explotados eslo opt tbl).map (fun q => q.1)) := by
  constructor
  · intro r h
    unfold diasPeriodo
    by_cases hi : (0 : Int) ≤ r.fecha_ini
    · rw [if_pos hi]
      exact rango_vacio (by omega)
    · rw [if_neg hi]
  · intro eslo opt tbl ubicLong k hlk
    by_cases hk : k ∈ (explotados eslo opt tbl).map (fun q => q.1)
    · left
      unfold longitudesConfirmados
      refine List.mem_map.mpr ⟨k, claves_complete hk, ?_⟩
      rw [hlk]
    · right
      exact hk

/-- Witness for the amended C7: the invalid period 5..3 gets an empty day
list, and the unknown-area key (0, ZONA MISTERIOSA) of tblC7 is carried
uncapped into the committed-lengths table. -/
theorem sin_validacion_testigo :
    diasPeriodo ⟨"PRO9", 1, 5, 3, "FLOTE", "ZONA MISTERIOSA"⟩ = [] ∧
      ((((0 : Int), "ZONA MISTERIOSA"),
          sumaLlave (explotados (fun _ => 120) (fun _ => false) tblC7)
            ((0 : Int), "ZONA MISTERIOSA")) ∈
          longitudesConfirmados (fun _ => 120) (fun _ => false) tblC7
            [("MUELLE SUR", 130)] ∨
        ((0 : Int), "ZONA MISTERIOSA") ∉
          (explotados (fun _ => 120) (fun _ => false) tblC7).map (fun q => q.1)) :=
  ⟨sin_validacion.1 ⟨"PRO9", 1, 5, 3, "FLOTE", "ZONA MISTERIOSA"⟩ (by decide),
    sin_validacion.2 (fun _ => 120) (fun _ => false) tblC7 [("MUELLE SUR", 130)]
      ((0 : Int), "ZONA MISTERIOSA") (by decide)⟩

/-- Table of the C8 counterexample: an optimizable project with two adjacent
same-type post-epoch periods declared at two distinct concrete quays. -/
def rawC8 : List Periodo :=
  [⟨"PRO1", 0, 0, 5, "FLOTE", "MUELLE A"⟩,
   ⟨"PRO1", 1, 6, 9, "FLOTE", "MUELLE B"⟩]

/-- C8 counterexample: the Normalizer is not idempotent.  On rawC8 the first
pass keeps the two periods (their areas differ) and then forces UNASSIGNED on
both; the second pass now sees two adjacent same-type same-area periods and
merges them, so applying the Normalizer to its own output changes the
table. -/
theorem normalizar_no_idempotente :
    normalizar (fun p => p == "PRO1") (normalizar (fun p => p == "PRO1") rawC8) ≠
      normalizar (fun p => p == "PRO1") rawC8 := by
  decide

/-- C8 amended: on a table holding a single period the Normalizer is
idempotent, for every period and every optimizable set. -/
theorem normalizar_idempotente_un_periodo (opt : String → Bool) (r : Periodo) :
    normalizar opt (normalizar opt [r]) = normalizar opt [r] := by
  obtain ⟨pid, pno, fi, ff, td, na⟩ := r
  by_cases hfi : fi < 0
  · by_cases hff : (0 : Int) ≤ ff
    · -- epoch-straddling period: split into two halves
      have hfi' : ¬ (0 : Int) ≤ fi := by omega
      have hfile : fi ≤ 0 := by omega
      by_cases hopt : opt pid = true
      · have h1 : normalizar opt [⟨pid, pno, fi, ff, td, na⟩] =
            [⟨pid, 0, fi, -1, td, na⟩, ⟨pid, 1, 0, ff, td, SIN_UBICACION⟩] := by
          simp [normalizar, unificar, ordenar, insertar, lePeriodo, separar, cruza,
            enumerar, enumerarAux, forzar, unificarAux, List.lookup,
            hfi, hff, hfi', hfile, hopt]
        rw [h1]
        by_cases hna : na = SIN_UBICACION
        · subst hna
          simp [normalizar, unificar, ordenar, insertar, lePeriodo, separar, cruza,
            enumerar, enumerarAux, forzar, unificarAux, List.lookup,
            hfi, hff, hfi', hfile, hopt]
        · have hna' : ¬(SIN_UBICACION = na) := fun h => hna h.symm
          simp [normalizar, unificar, ordenar, insertar, lePeriodo, separar, cruza,
            enumerar, enumerarAux, forzar, unificarAux, List.lookup,
            hfi, hff, hfi', hfile, hopt, hna, hna']
      · have hopt' : opt pid = false := by
          cases h : opt pid
          · rfl
          · exact absurd h hopt
        have h1 : normalizar opt [⟨pid, pno, fi, ff, td, na⟩] =
            [⟨pid, 0, fi, -1, td, na⟩, ⟨pid, 1, 0, ff, td, na⟩] := by
          simp [normalizar, unificar, ordenar, insertar, lePeriodo, separar, cruza,
            enumerar, enumerarAux, forzar, unificarAux, List.lookup,
            hfi, hff, hfi', hfile, hopt']
        rw [h1]
        simp [normalizar, unificar, ordenar, insertar, lePeriodo, separar, cruza,
          enumerar, enumerarAux, forzar, unificarAux, List.lookup,
          hfi, hff, hfi', hfile, hopt']
    · -- entirely before the epoch
      have hfi' : ¬ (0 : Int) ≤ fi := by omega
      have hff' : ¬ (0 : Int) ≤ ff := hff
      have h1 : normalizar opt [⟨pid, pno, fi, ff, td, na⟩] =
          [⟨pid, 0, fi, ff, td, na⟩] := by
        simp [normalizar, unificar, ordenar, insertar, lePeriodo, separar, cruza,
          enumerar, enumerarAux, forzar, unificarAux, List.lookup, hfi, hff', hfi']
      rw [h1]
      simp [normalizar, unificar, ordenar, insertar, lePeriodo, separar, cruza,
        enumerar, enumerarAux, forzar, unificarAux, List.lookup, hfi, hff', hfi']
  · -- starts at or after the epoch
    have hfi' : (0 : Int) ≤ fi := by omega
    have hfi'' : ¬ fi < 0 := hfi
    by_cases hopt : opt pid = true
    · have h1 : normalizar opt [⟨pid, pno, fi, ff, td, na⟩] =
          [⟨pid, 0, fi, ff, td, SIN_UBICACION⟩] := by
        simp [normalizar, unificar, ordenar, insertar, lePeriodo, separar, cruza,
          enumerar, enumerarAux, forzar, unificarAux, List.lookup, hfi'', hfi', hopt]
      rw [h1]
      simp [normalizar, unificar, ordenar, insertar, lePeriodo, separar, cruza,
        enumerar, enumerarAux, forzar, unificarAux, List.lookup, hfi'', hfi', hopt]
    · have hopt' : opt pid = false := by
        cases h : opt pid
        · rfl
        · exact absurd h hopt
      have h1 : normalizar opt [⟨pid, pno, fi, ff, td, na⟩] =
          [⟨pid, 0, fi, ff, td, na⟩] := by
        simp [normalizar, unificar, ordenar, insertar, lePeriodo, separar, cruza,
          enumerar, enumerarAux, forzar, unificarAux, List.lookup, hfi'', hfi', hopt']
      rw [h1]
      simp [normalizar, unificar, ordenar, insertar, lePeriodo, separar, cruza,
        enumerar, enumerarAux, forzar, unificarAux, List.lookup, hfi'', hfi', hopt']

end Astican
